import Mathlib

/-!
Verification development for the WTSL tennis-player dashboard
(`tennis_dashboard.py`).  The core pipeline embedded here:

* raw-record loading: deduplication by `name` (first occurrence wins)
  followed by normalization of the `hand` column
  (`fillna("Unknown")` + a `replace` mapping table);
* the sidebar filter callback `update_player_list` (name search via
  `Series.str.contains` with its default regex interpretation and
  `case=False`, exact style and hand matches, minimum-speed threshold
  with Python truthiness on `0`, final `sort_values("name")`);
* the helper `talent_to_stars` (lenient integer coercion, clamping,
  star-glyph rendering, with Python string repetition semantics on
  negative counts);
* the tab-content callback `render_tabs` producing view models
  (overview radar projection with `p.get(a, 0)`, group tables with
  `p.get(key, "—")`, talents table, compare layout, and the
  placeholder / not-found / invalid-tab fallbacks);
* the comparison callback `compare_players` (two tagged radar series
  plus a side-by-side table).

Machine values are embedded as `Int` / `String`; a pandas cell that may
be absent for a record is an `Option Int`; code paths that raise
(`iloc[0]` on an empty selection) return `Option`.
-/

/-- Python value fed to `talent_to_stars`: the dashboard passes either a
number or (per the transform's contract) an arbitrary value such as a
string; `int(val)` then either converts or raises. -/
inductive PyVal where
  | vint : Int → PyVal
  | vstr : String → PyVal
  | vnan : PyVal
deriving DecidableEq

/-- Accumulating decimal parser: consumes the remaining characters,
failing on the first non-digit. -/
def pyDigitsGo (acc : Nat) : List Char → Option Nat
  | [] => some acc
  | c :: cs => if c.isDigit then pyDigitsGo (10 * acc + (c.toNat - 48)) cs else none

/-- Nonempty decimal digit run, or failure. -/
def pyDigits? : List Char → Option Nat
  | [] => none
  | c :: cs => pyDigitsGo 0 (c :: cs)

/-- Python `int(s)` on a string: an optional sign followed by a
nonempty run of decimal digits converts; anything else raises
(`none`). -/
def pyStrToInt? (s : String) : Option Int :=
  match s.data with
  | '-' :: cs => (pyDigits? cs).map (fun n => -(n : Int))
  | '+' :: cs => (pyDigits? cs).map (fun n => (n : Int))
  | cs => (pyDigits? cs).map (fun n => (n : Int))

/-- Python `int(val)` for the embedded value universe: an integer
converts to itself, a string parses as a decimal integer or raises
(`none`); `int(float("nan"))` raises `ValueError` (`none`), so a NaN
cell fed to the talent transform coerces to 0 through the `except`. -/
def pyInt? : PyVal → Option Int
  | .vint n => some n
  | .vstr s => pyStrToInt? s
  | .vnan => none

/-- Python string repetition `s * n`: `n` copies for positive `n`, the
empty string when `n` is zero or negative. -/
def strRepeat (s : String) (n : Int) : String :=
  String.join (List.replicate n.toNat s)

/-- Embedding of `talent_to_stars(val, max_one=False)`: lenient
coercion to an integer (conversion failure yields 0), clamp from above
(at 1 when `max_one`, else at 2), then render 0 as the dash glyph and a
positive count as that many star glyphs. -/
def talent_to_stars (val : PyVal) (max_one : Bool) : String :=
  let v : Int := (pyInt? val).getD 0
  let w : Int := if max_one then (if v ≤ 1 then v else 1) else if 2 < v then 2 else v
  if w = 0 then "—" else strRepeat "⭐" w

/-- The `replace` mapping table applied to the `hand` column
(`df["hand"].replace({...})` at load time), verbatim from the source. -/
def handMap : List (String × String) :=
  [("L", "Left"), ("R", "Right"),
   ("U", "Left"),
   ("LeftHanded", "Left"), ("RightHanded", "Right"),
   ("left", "Left"), ("right", "Right"),
   ("unknown", "Left"),
   ("Unknown", "Left"),
   ("Diestro", "Right"),
   ("Zurdo", "Left")]

/-- Pandas `replace` with the mapping table: a value that is a key of
the table is replaced, any other value passes through unchanged. -/
def replaceHand (x : String) : String :=
  (handMap.lookup x).getD x

/-- Hand normalization of the load pipeline:
`fillna("Unknown")` (a missing cell becomes the string `"Unknown"`)
followed by the `replace` mapping table. -/
def normalize_hand (h : Option String) : String :=
  replaceHand (h.getD "Unknown")

/-- A raw input record, before normalization: `hand` may be missing;
all numeric columns live in the flat `attrs` association list. -/
structure RawPlayer where
  name : String
  style : String
  hand : Option String
  attrs : List (String × Int)
deriving DecidableEq

/-- A loaded player record: `hand` is normalized; numeric columns
(height, weight, speed, skills, talents) live in `attrs`, with an
absent pair embedding a cell that is missing for this record. -/
structure Player where
  name : String
  style : String
  hand : String
  attrs : List (String × Int)
deriving DecidableEq

/-- Cell access `p.get(key, default)` without the default: the record's
value for the column, or `none` when this record has no such value. -/
def Player.get (p : Player) (k : String) : Option Int :=
  p.attrs.lookup k

/-- Normalization of one record: only the `hand` column is rewritten by
the load pipeline. -/
def normalizeRecord (r : RawPlayer) : Player :=
  ⟨r.name, r.style, normalize_hand r.hand, r.attrs⟩

/-- Worker for `drop_duplicates(subset=["name"])`: walk the records in
order, keeping a record only when its name has not been seen before. -/
def dedupGo (seen : List String) : List RawPlayer → List RawPlayer
  | [] => []
  | r :: rs =>
    if r.name ∈ seen then dedupGo seen rs
    else r :: dedupGo (r.name :: seen) rs

/-- `drop_duplicates(subset=["name"])` with the default `keep="first"`:
one record per distinct name, first occurrence wins, original relative
order preserved. -/
def dedupByName (rs : List RawPlayer) : List RawPlayer :=
  dedupGo [] rs

/-- The load pipeline producing `df`: deduplicate by name, then
normalize the hand column. -/
def loadStore (raws : List RawPlayer) : List Player :=
  (dedupByName raws).map normalizeRecord

/-- The `LABELS` attribute-catalog dictionary, verbatim from the
source (the `name`, `style`, `height`, `weight`, `hand` entries are
string columns and are listed for completeness). -/
def LABELS : List (String × String) :=
  [("name", "Player Name"),
   ("style", "Play Style"),
   ("height", "Height (cm)"),
   ("weight", "Weight (kg)"),
   ("hand", "Dominant Hand"),
   ("fh_power", "Forehand Power"),
   ("fh_consistency", "Forehand Consistency"),
   ("fh_precision", "Forehand Precision"),
   ("bh_power", "Backhand Power"),
   ("bh_consistency", "Backhand Consistency"),
   ("bh_precision", "Backhand Precision"),
   ("fh_volley", "Forehand Volley"),
   ("bh_volley", "Backhand Volley"),
   ("smash", "Smash"),
   ("net_presence", "Net Presence"),
   ("srv_power", "Service Power"),
   ("srv_consistency", "Service Consistency"),
   ("srv_precision", "Service Precision"),
   ("focus", "Focus"),
   ("counter", "Counter Skill"),
   ("lob", "Lob Skill"),
   ("dropshot", "Dropshot Skill"),
   ("topspin", "Topspin Skill"),
   ("speed", "Speed"),
   ("stamina", "Stamina"),
   ("tonicity", "Muscle Tone"),
   ("tal_slice_serve", "Slice Serve"),
   ("tal_topspin_serve", "Topspin Serve"),
   ("tal_twist_serve", "Twist Serve"),
   ("tal_slice_mastery", "Slice Mastery"),
   ("tal_slider", "Slider"),
   ("tal_boom_server", "Boom Boom Server"),
   ("tal_ball_feeling", "Ball Feeling"),
   ("tal_spinny_bh", "Spinny Backhand"),
   ("tal_flat_bh", "Flat Backhand")]

/-- Label lookup `LABELS[key]`.  Every key the dashboard passes is in
the catalog; a key outside the catalog (which would raise `KeyError`)
is outside the modelled fragment and falls back to the key itself. -/
def labelOf (k : String) : String :=
  (LABELS.lookup k).getD k

/-- The `GROUPS` dictionary, verbatim from the source. -/
def GROUPS : List (String × List String) :=
  [("Rally", ["fh_power", "fh_consistency", "fh_precision",
              "bh_power", "bh_consistency", "bh_precision"]),
   ("Volley", ["fh_volley", "bh_volley", "smash", "net_presence"]),
   ("Serve", ["srv_power", "srv_consistency", "srv_precision"]),
   ("Special", ["focus", "counter", "lob", "dropshot", "topspin"]),
   ("Physique", ["speed", "stamina", "tonicity"]),
   ("Talents", ["tal_slice_serve", "tal_topspin_serve", "tal_twist_serve",
                "tal_slice_mastery", "tal_slider", "tal_boom_server",
                "tal_ball_feeling", "tal_spinny_bh", "tal_flat_bh"])]

/-- Group lookup `GROUPS[section]` (all sections used exist). -/
def groupAttrs (sec : String) : List String :=
  (GROUPS.lookup sec).getD []

/-- The fixed radar attribute subset used by Overview and Compare. -/
def radar_attrs : List String :=
  ["fh_power", "bh_power", "srv_power", "speed", "stamina", "focus"]

/-- Python `str.capitalize()`: first character upper-cased, the rest
lower-cased. -/
def pyCapitalize (s : String) : String :=
  match s.data with
  | [] => ""
  | c :: cs => ⟨c.toUpper :: cs.map Char.toLower⟩

/-- One atom of the compiled search pattern.  `Series.str.contains`
interprets its argument as a regular expression (`regex=True` is the
pandas default); the fragment embedded here covers patterns built from
ordinary characters and the `.` wildcard — the fragment the dashboard's
search box exercises.  Patterns using quantifiers, classes, anchors or
groups are outside the modelled fragment. -/
inductive ReAtom where
  | dot : ReAtom
  | lit : Char → ReAtom
deriving DecidableEq

/-- Matching of one pattern atom against one character, under
`re.IGNORECASE` (the effect of `case=False`): the wildcard matches any
character, a literal matches up to case. -/
def reAtomMatch : ReAtom → Char → Bool
  | .dot, _ => true
  | .lit c, d => decide (c.toLower = d.toLower)

/-- Compilation of a pattern string into atoms: `.` becomes the
wildcard, every other character a literal. -/
def compilePattern (pat : String) : List ReAtom :=
  pat.data.map (fun c => if c = '.' then ReAtom.dot else ReAtom.lit c)

/-- Does the pattern match starting exactly at the head of `cs`
(consuming a prefix of `cs`)? -/
def matchHere : List ReAtom → List Char → Bool
  | [], _ => true
  | _ :: _, [] => false
  | a :: as, c :: cs => reAtomMatch a c && matchHere as cs

/-- Python `re.search` for the atom fragment: does the pattern match
starting at some position of the text? -/
def reSearch (ats : List ReAtom) : List Char → Bool
  | [] => matchHere ats []
  | c :: cs => matchHere ats (c :: cs) || reSearch ats cs

/-- Embedding of `name_series.str.contains(pat, case=False, na=False)`
for one (non-null) name: regex search of the pattern in the name,
ignoring case. -/
def pyStrContainsCI (s pat : String) : Bool :=
  reSearch (compilePattern pat) s.data

/-- Case-insensitive prefix test on character lists (specification-side
helper, written from the spec's words "contains the text,
case-insensitive, substring match"). -/
def isPrefixCI : List Char → List Char → Bool
  | [], _ => true
  | _ :: _, [] => false
  | c :: cs, d :: ds => decide (c.toLower = d.toLower) && isPrefixCI cs ds

/-- Case-insensitive literal substring containment (specification-side
definition of the spec's "contains the text, case-insensitive,
substring match (no tokenization, no fuzzy matching)"). -/
def isSubstrCI (needle : List Char) : List Char → Bool
  | [] => isPrefixCI needle []
  | d :: ds => isPrefixCI needle (d :: ds) || isSubstrCI needle ds

/-- Ordering of players by name, the key used by
`sort_values("name")` (string comparison by code points). -/
def nameLe (p q : Player) : Prop :=
  p.name ≤ q.name

instance : DecidableRel nameLe :=
  fun p q => inferInstanceAs (Decidable (p.name ≤ q.name))

instance : IsTotal Player nameLe :=
  ⟨fun p q => le_total p.name q.name⟩

instance : IsTrans Player nameLe :=
  ⟨fun _ _ _ h h' => le_trans h h'⟩

/-- The speed-threshold row test `players["speed"] >= min_speed`: a
record whose speed cell is missing compares as false (NaN semantics)
and is dropped. -/
def speedPass (min_speed : Int) (p : Player) : Bool :=
  match p.get "speed" with
  | some v => decide (min_speed ≤ v)
  | none => false

/-- Embedding of the sidebar callback `update_player_list`: apply the
four optional constraints in source order — name search (skipped when
the search box is `None` or empty, Python truthiness), exact style
match, exact hand match, speed threshold (skipped when the slider reads
exactly 0, Python truthiness) — then sort ascending by name. -/
def update_player_list (search style hand : Option String)
    (min_speed : Int) (players : List Player) : List Player :=
  let ps1 := match search with
    | some s => if s = "" then players
                else players.filter (fun p => pyStrContainsCI p.name s)
    | none => players
  let ps2 := match style with
    | some st => if st = "" then ps1
                 else ps1.filter (fun p => decide (p.style = st))
    | none => ps1
  let ps3 := match hand with
    | some hd => if hd = "" then ps2
                 else ps2.filter (fun p => decide (p.hand = hd))
    | none => ps2
  let ps4 := if min_speed = 0 then ps3 else ps3.filter (speedPass min_speed)
  List.insertionSort nameLe ps4

/-- One cell of a pandas row `Series`: an actual numeric value, or NaN
— the value a record shows for a column that exists in the frame
(because some record has it) but is missing for this record. -/
inductive PdCell where
  | num : Int → PdCell
  | nan : PdCell
deriving DecidableEq

/-- Does the frame built from the records have this column at all?
`pd.DataFrame(data)` takes the union of the records' keys (the string
columns `name`, `style`, `hand` always exist and are not numeric
cells). -/
def frameHasCol (store : List Player) (k : String) : Bool :=
  store.any (fun q => (q.get k).isSome)

/-- Pandas `Series.get(key)` on a row of the frame without a default:
the record's own value, NaN when the column exists in the frame but
this record's cell is missing, and `none` when the column is absent
from the whole frame (the key is not in the row's index — `Series.get`
falls back to its default there, and direct indexing `p[key]` would
raise `KeyError`). -/
def seriesGet (store : List Player) (p : Player) (k : String) : Option PdCell :=
  match p.get k with
  | some v => some (.num v)
  | none => if frameHasCol store k then some .nan else none

/-- The radar projection shared by Overview and Compare:
`[(LABELS[a], p.get(a, 0)) for a in radar_attrs]` — the default 0
applies only when the column is absent from the whole frame; a
record-missing cell of an existing column stays NaN. -/
def radarPoints (store : List Player) (p : Player) : List (String × PdCell) :=
  radar_attrs.map (fun a => (labelOf a, (seriesGet store p a).getD (.num 0)))

/-- One group-table cell `p.get(key, "—")` as displayed: the numeric
value, the NaN cell, or the dash default when the column is absent
from the whole frame. -/
inductive TableCell where
  | num : Int → TableCell
  | nan : TableCell
  | dash : TableCell
deriving DecidableEq

/-- The `Series.get(key, "—")` result for one table cell. -/
def tableCellOf : Option PdCell → TableCell
  | some (.num v) => .num v
  | some .nan => .nan
  | none => .dash

/-- Rows of one group table:
`[(LABELS[key], p.get(key, "—")) for key in GROUPS[section]]`. -/
def groupTable (store : List Player) (p : Player) (sec : String) :
    List (String × TableCell) :=
  (groupAttrs sec).map (fun k => (labelOf k, tableCellOf (seriesGet store p k)))

/-- The `p.get(key, 0)` result fed to the talent transform, as the
Python value `int()` then sees: a number, or NaN for a record-missing
cell of an existing column (where `int(float("nan"))` raises and the
`except` coerces to 0). -/
def talentCell (store : List Player) (p : Player) (k : String) : PyVal :=
  match (seriesGet store p k).getD (.num 0) with
  | .num v => .vint v
  | .nan => .vnan

/-- Rows of the talents table:
`[(LABELS[key], talent_to_stars(p.get(key, 0), max_one=False)) ...]`. -/
def talentRows (store : List Player) (p : Player) : List (String × String) :=
  (groupAttrs "Talents").map
    (fun k => (labelOf k, talent_to_stars (talentCell store p k) false))

/-- View model returned by the tab-content callback: each user-driven
lookup condition is an ordinary variant, not an exception. -/
inductive ViewModel where
  | selectPlayer
  | notFound (name : String)
  | overview (name style hand : String) (height weight : Option PdCell)
      (radar : List (String × PdCell))
  | group (name sec : String) (rows : List (String × TableCell))
  | talents (name : String) (rows : List (String × String))
  | compareTab (defaultA : String) (options : List String)
  | invalidTab
deriving DecidableEq

/-- Embedding of the tab-content callback `render_tabs`.  The URL-query
decoding layer is an external collaborator; the callback is embedded
from the point where the selected player name (`player_name`) has been
extracted, `none` embedding an absent `player` query parameter. -/
def render_tabs (tab : String) (player_name : Option String)
    (store : List Player) : ViewModel :=
  match player_name with
  | none => .selectPlayer
  | some n =>
    if n = "" then .selectPlayer
    else match store.find? (fun p => decide (p.name = n)) with
      | none => .notFound n
      | some p =>
        if tab = "overview" then
          .overview p.name p.style p.hand (seriesGet store p "height")
            (seriesGet store p "weight") (radarPoints store p)
        else if tab ∈ (["rally", "volley", "serve", "special", "physique"] : List String) then
          .group p.name (pyCapitalize tab) (groupTable store p (pyCapitalize tab))
        else if tab = "talents" then
          .talents p.name (talentRows store p)
        else if tab = "compare" then
          .compareTab p.name (store.map Player.name)
        else .invalidTab

/-- One tagged radar series of the comparison view. -/
structure RadarSeries where
  player : String
  points : List (String × PdCell)
deriving DecidableEq

/-- View model of the comparison callback. -/
inductive CompareVM where
  | selectTwo
  | result (seriesA seriesB : RadarSeries) (headerA headerB : String)
      (rows : List (String × TableCell × TableCell))
deriving DecidableEq

/-- Python truthiness of the dropdown values handed to
`compare_players`: `None` and the empty string are falsy. -/
def truthy : Option String → Bool
  | none => false
  | some s => decide (s ≠ "")

/-- Side-by-side table rows of the comparison:
`(LABELS[attr], p1.get(attr, "—"), p2.get(attr, "—"))`. -/
def compareRows (store : List Player) (p q : Player) :
    List (String × TableCell × TableCell) :=
  radar_attrs.map (fun a =>
    (labelOf a, tableCellOf (seriesGet store p a), tableCellOf (seriesGet store q a)))

/-- Embedding of the comparison callback `compare_players`: the
unselected-slot placeholder when either dropdown is falsy, otherwise
the two tagged radar series, the table headers and the side-by-side
rows.  `iloc[0]` on an empty name selection raises; that path is the
`none` result. -/
def compare_players (a b : Option String) (store : List Player) :
    Option CompareVM :=
  if !truthy a || !truthy b then some .selectTwo
  else
    let an := a.getD ""
    let bn := b.getD ""
    match store.find? (fun p => decide (p.name = an)),
          store.find? (fun p => decide (p.name = bn)) with
    | some p1, some p2 =>
      some (.result ⟨an, radarPoints store p1⟩ ⟨bn, radarPoints store p2⟩ an bn
        (compareRows store p1 p2))
    | _, _ => none

/-- Swapping of a comparison view model as the symmetry property of the
spec describes it: the two tagged series exchanged, the table headers
exchanged, and the two value columns of every row exchanged. -/
def swapCompareVM : CompareVM → CompareVM
  | .selectTwo => .selectTwo
  | .result s1 s2 h1 h2 rows =>
    .result s2 s1 h2 h1 (rows.map (fun r => (r.1, r.2.2, r.2.1)))

/-! Helper lemmas. -/

theorem speedPass_iff (m : Int) (p : Player) :
    speedPass m p = true ↔ ∃ v, p.get "speed" = some v ∧ m ≤ v := by
  unfold speedPass
  cases h : p.get "speed" with
  | none => simp
  | some v => simp

theorem dedupGo_sublist (seen : List String) (rs : List RawPlayer) :
    (dedupGo seen rs).Sublist rs := by
  induction rs generalizing seen with
  | nil => simp [dedupGo]
  | cons r rs ih =>
    rw [dedupGo]
    by_cases h : r.name ∈ seen
    · rw [if_pos h]; exact (ih seen).cons r
    · rw [if_neg h]; exact (ih (r.name :: seen)).cons₂ r

theorem dedupGo_mem_name (seen : List String) (rs : List RawPlayer) :
    ∀ x ∈ dedupGo seen rs, x.name ∉ seen := by
  induction rs generalizing seen with
  | nil => intro x hx; simp [dedupGo] at hx
  | cons r rs ih =>
    intro x hx
    rw [dedupGo] at hx
    by_cases h : r.name ∈ seen
    · rw [if_pos h] at hx; exact ih seen x hx
    · rw [if_neg h] at hx
      rcases List.mem_cons.mp hx with rfl | hx'
      · exact h
      · intro hs
        exact ih (r.name :: seen) x hx' (List.mem_cons_of_mem _ hs)

theorem dedupGo_names_nodup (seen : List String) (rs : List RawPlayer) :
    ((dedupGo seen rs).map RawPlayer.name).Nodup := by
  induction rs generalizing seen with
  | nil => simp [dedupGo]
  | cons r rs ih =>
    rw [dedupGo]
    by_cases h : r.name ∈ seen
    · rw [if_pos h]; exact ih seen
    · rw [if_neg h]
      refine List.nodup_cons.mpr ⟨?_, ih (r.name :: seen)⟩
      intro hmem
      rcases List.mem_map.mp hmem with ⟨x, hx, hxe⟩
      refine dedupGo_mem_name (r.name :: seen) rs x hx ?_
      rw [hxe]
      exact List.mem_cons_self _ _

theorem dedupGo_find (seen : List String) (rs : List RawPlayer) (n : String)
    (hn : n ∉ seen) :
    (dedupGo seen rs).find? (fun r => decide (r.name = n)) =
      rs.find? (fun r => decide (r.name = n)) := by
  induction rs generalizing seen with
  | nil => simp [dedupGo]
  | cons r rs ih =>
    rw [dedupGo]
    by_cases h : r.name ∈ seen
    · have hne : ¬ (r.name = n) := fun he => hn (he ▸ h)
      rw [if_pos h, List.find?_cons_of_neg _ (by simpa using hne)]
      exact ih seen hn
    · rw [if_neg h]
      by_cases he : r.name = n
      · rw [List.find?_cons_of_pos _ (by simpa using he),
            List.find?_cons_of_pos _ (by simpa using he)]
      · rw [List.find?_cons_of_neg _ (by simpa using he),
            List.find?_cons_of_neg _ (by simpa using he)]
        refine ih (r.name :: seen) ?_
        intro hc
        rcases List.mem_cons.mp hc with h1 | h2
        · exact he h1.symm
        · exact hn h2

theorem find_map_normalize (l : List RawPlayer) (n : String) :
    (l.map normalizeRecord).find? (fun p => decide (p.name = n)) =
      (l.find? (fun r => decide (r.name = n))).map normalizeRecord := by
  induction l with
  | nil => simp
  | cons r rs ih =>
    by_cases he : r.name = n
    · rw [List.map_cons,
          List.find?_cons_of_pos _ (by simpa [normalizeRecord] using he),
          List.find?_cons_of_pos _ (by simpa using he)]
      rfl
    · rw [List.map_cons,
          List.find?_cons_of_neg _ (by simpa [normalizeRecord] using he),
          List.find?_cons_of_neg _ (by simpa using he)]
      exact ih

theorem names_map_normalize (l : List RawPlayer) :
    (l.map normalizeRecord).map Player.name = l.map RawPlayer.name := by
  rw [List.map_map]
  rfl

theorem matchHere_lit (cs ds : List Char) :
    matchHere (cs.map ReAtom.lit) ds = isPrefixCI cs ds := by
  induction cs generalizing ds with
  | nil => cases ds <;> rfl
  | cons c cs ih =>
    cases ds with
    | nil => rfl
    | cons d ds => simp [matchHere, isPrefixCI, reAtomMatch, ih]

theorem reSearch_lit (cs ds : List Char) :
    reSearch (cs.map ReAtom.lit) ds = isSubstrCI cs ds := by
  induction ds with
  | nil => simp [reSearch, isSubstrCI, matchHere_lit]
  | cons d ds ih => simp [reSearch, isSubstrCI, matchHere_lit, ih]

theorem compilePattern_lit (s : String) (h : ∀ c ∈ s.data, c ≠ '.') :
    compilePattern s = s.data.map ReAtom.lit := by
  unfold compilePattern
  exact List.map_congr_left (fun c hc => if_neg (h c hc))

theorem contains_eq_substr (pat : String) (h : ∀ c ∈ pat.data, c ≠ '.')
    (s : String) : pyStrContainsCI s pat = isSubstrCI pat.data s.data := by
  unfold pyStrContainsCI
  rw [compilePattern_lit pat h, reSearch_lit]

/-- Characters the Python `re` module treats as metacharacters. -/
def pyRegexMeta : List Char :=
  ['.', '^', '$', '*', '+', '?', '\x7b', '\x7d', '[', ']', '\\', '|', '(', ')']

/-! Claim theorems. -/

/-- C2: every raw hand value listed in the normalization mapping table
normalizes to one of "Left" or "Right"; a missing hand value normalizes
to "Left"; the explicit code "U" normalizes to "Left". -/
theorem hand_normalization (k : String) (hk : k ∈ handMap.map Prod.fst) :
    normalize_hand (some k) ∈ (["Left", "Right"] : List String)
    ∧ normalize_hand none = "Left"
    ∧ normalize_hand (some "U") = "Left" := by
  refine ⟨?_, by decide, by decide⟩
  fin_cases hk <;> decide

theorem hand_normalization_witness :
    "L" ∈ handMap.map Prod.fst
    ∧ (normalize_hand (some "L") ∈ (["Left", "Right"] : List String)
       ∧ normalize_hand none = "Left"
       ∧ normalize_hand (some "U") = "Left") :=
  ⟨by decide, hand_normalization "L" (by decide)⟩

/-- C3: the talent-to-stars transform renders 0 as the dash glyph, 1 as
one star, 5 (clamped) as two stars, a non-numeric input as the dash
glyph via coercion to 0, and 5 with `maxOne` set as a single star. -/
theorem talent_transform_examples :
    talent_to_stars (PyVal.vint 0) false = "—"
    ∧ talent_to_stars (PyVal.vint 1) false = "⭐"
    ∧ talent_to_stars (PyVal.vint 5) false = "⭐⭐"
    ∧ talent_to_stars (PyVal.vstr "bad") false = "—"
    ∧ talent_to_stars (PyVal.vint 5) true = "⭐" := by
  refine ⟨by decide, by decide, by decide, by decide, by decide⟩

/-- C10: for a strictly negative integer input with `maxOne` unset the
transform returns the empty string — the clamp only bounds from above
and Python string repetition by a negative count is empty. -/
theorem negative_talent_empty (v : Int) (hv : v < 0) :
    talent_to_stars (PyVal.vint v) false = "" := by
  unfold talent_to_stars pyInt? strRepeat
  have h2 : ¬ (2 < v) := by omega
  have h0 : ¬ (v = 0) := by omega
  simp [h2, h0, Int.toNat_of_nonpos hv.le]
  rfl

theorem negative_talent_empty_witness :
    (-1 : Int) < 0 ∧ talent_to_stars (PyVal.vint (-1)) false = "" :=
  ⟨by decide, negative_talent_empty (-1) (by decide)⟩

/-- C5: the loaded store has exactly one record per distinct name —
first occurrence wins, later duplicates are dropped, and surviving
records keep their original relative order (the output name sequence is
a subsequence of the input name sequence, and the record stored under a
name is the normalization of the first input record with that name). -/
theorem load_dedup_first_wins (raws : List RawPlayer) :
    ((loadStore raws).map Player.name).Nodup
    ∧ ((loadStore raws).map Player.name).Sublist (raws.map RawPlayer.name)
    ∧ ∀ n : String,
        (loadStore raws).find? (fun p => decide (p.name = n)) =
          (raws.find? (fun r => decide (r.name = n))).map normalizeRecord := by
  refine ⟨?_, ?_, ?_⟩
  · rw [loadStore, names_map_normalize]
    exact dedupGo_names_nodup [] raws
  · rw [loadStore, names_map_normalize]
    exact (dedupGo_sublist [] raws).map RawPlayer.name
  · intro n
    rw [loadStore, find_map_normalize]
    rw [dedupByName, dedupGo_find [] raws n (by simp)]

/-- C6: the filter's output is sorted ascending by name (code-point
string order), for every combination of criteria and every input
order. -/
theorem filter_output_sorted (search style hand : Option String)
    (min_speed : Int) (players : List Player) :
    List.Sorted nameLe (update_player_list search style hand min_speed players) :=
  List.sorted_insertionSort nameLe _

/-- C8: comparison is symmetric — swapping the two selected players
yields the same two tagged radar series with the tags exchanged, the
table headers exchanged and the two value columns of every row
exchanged (and the placeholder / error outcomes agree). -/
theorem compare_symmetry (a b : Option String) (store : List Player) :
    compare_players b a store =
      Option.map swapCompareVM (compare_players a b store) := by
  unfold compare_players
  by_cases ha : truthy a <;> by_cases hb : truthy b <;>
    simp [ha, hb, swapCompareVM]
  cases h1 : store.find? (fun p => decide (p.name = a.getD "")) <;>
    cases h2 : store.find? (fun p => decide (p.name = b.getD "")) <;>
      simp [h1, h2, swapCompareVM, compareRows, List.map_map]

/-- C1: with no search text, the filter keeps exactly the records
satisfying the conjunction of all present constraints — exact style
match, exact (normalized) hand match, and speed at least `minSpeed`
when `minSpeed` is non-zero, while `minSpeed = 0` imposes no speed
constraint at all. -/
theorem filter_and_composition (style hand : Option String) (min_speed : Int)
    (hst : ∀ s, style = some s → s ≠ "") (hhd : ∀ s, hand = some s → s ≠ "")
    (players : List Player) (p : Player) :
    p ∈ update_player_list none style hand min_speed players ↔
      p ∈ players
      ∧ (∀ s, style = some s → p.style = s)
      ∧ (∀ s, hand = some s → p.hand = s)
      ∧ (min_speed ≠ 0 → ∃ v, p.get "speed" = some v ∧ min_speed ≤ v) := by
  have hmem : ∀ l : List Player, p ∈ List.insertionSort nameLe l ↔ p ∈ l :=
    fun l => (List.perm_insertionSort nameLe l).mem_iff
  unfold update_player_list
  rcases style with _ | st
  · rcases hand with _ | hd
    · by_cases hm : min_speed = 0 <;>
        simp [hm, hmem, List.mem_filter, speedPass_iff, and_assoc]
    · have hd0 : hd ≠ "" := hhd hd rfl
      by_cases hm : min_speed = 0 <;>
        simp [hm, hd0, hmem, List.mem_filter, speedPass_iff, and_assoc] <;>
          tauto
  · have hs0 : st ≠ "" := hst st rfl
    rcases hand with _ | hd
    · by_cases hm : min_speed = 0 <;>
        simp [hm, hs0, hmem, List.mem_filter, speedPass_iff, and_assoc] <;>
          tauto
    · have hd0 : hd ≠ "" := hhd hd rfl
      by_cases hm : min_speed = 0 <;>
        simp [hm, hs0, hd0, hmem, List.mem_filter, speedPass_iff, and_assoc] <;>
          tauto

theorem filter_and_composition_witness :
    ((⟨"Ann", "Aggressive", "Right", [("speed", 50)]⟩ : Player) ∈
        update_player_list none (some "Aggressive") none 45
          [⟨"Ann", "Aggressive", "Right", [("speed", 50)]⟩,
           ⟨"Bob", "Counter", "Left", [("speed", 40)]⟩] ↔
      (⟨"Ann", "Aggressive", "Right", [("speed", 50)]⟩ : Player) ∈
          [⟨"Ann", "Aggressive", "Right", [("speed", 50)]⟩,
           ⟨"Bob", "Counter", "Left", [("speed", 40)]⟩]
        ∧ (∀ s, (some "Aggressive" : Option String) = some s →
            (⟨"Ann", "Aggressive", "Right", [("speed", 50)]⟩ : Player).style = s)
        ∧ (∀ s, (none : Option String) = some s →
            (⟨"Ann", "Aggressive", "Right", [("speed", 50)]⟩ : Player).hand = s)
        ∧ ((45 : Int) ≠ 0 → ∃ v,
            (⟨"Ann", "Aggressive", "Right", [("speed", 50)]⟩ : Player).get "speed"
              = some v ∧ 45 ≤ v)) :=
  filter_and_composition (some "Aggressive") none 45
    (fun s hs => by cases hs; decide) (fun s hs => Option.noConfusion hs) _ _

/-- C4 counterexample: with the search text `"."` the filter keeps the
record named `"Ann"`, although `"."` is not a literal case-insensitive
substring of `"Ann"` — `str.contains` interprets the search text as a
regular expression (the pandas default), so the claim's universal
literal-substring reading fails on search strings with
metacharacters. -/
theorem name_filter_regex_counterexample :
    update_player_list (some ".") none none 0
        [⟨"Ann", "Aggressive", "Right", [("speed", 50)]⟩] =
      [⟨"Ann", "Aggressive", "Right", [("speed", 50)]⟩]
    ∧ isSubstrCI ".".data "Ann".data = false :=
  ⟨by decide, by decide⟩

/-- C4 amended: for every search text free of regex metacharacters the
name filter keeps a record iff its name contains the search text as a
literal case-insensitive substring; in general the search text is
interpreted as a case-insensitive regular expression searched anywhere
in the name. -/
theorem name_filter_substring_amended (search : String) (hs : search ≠ "")
    (hmeta : ∀ c ∈ search.data, c ∉ pyRegexMeta)
    (players : List Player) (p : Player) :
    p ∈ update_player_list (some search) none none 0 players ↔
      p ∈ players ∧ isSubstrCI search.data p.name.data = true := by
  have hdot : ∀ c ∈ search.data, c ≠ '.' := by
    intro c hc he
    exact hmeta c hc (by rw [he]; decide)
  have hmem : ∀ l : List Player, p ∈ List.insertionSort nameLe l ↔ p ∈ l :=
    fun l => (List.perm_insertionSort nameLe l).mem_iff
  unfold update_player_list
  simp [hs, hmem, List.mem_filter, contains_eq_substr search hdot]

theorem name_filter_substring_amended_witness :
    (("ann" : String) ≠ ""
     ∧ (∀ c ∈ ("ann" : String).data, c ∉ pyRegexMeta))
    ∧ ((⟨"Ann", "Aggressive", "Right", []⟩ : Player) ∈
          update_player_list (some "ann") none none 0
            [⟨"Ann", "Aggressive", "Right", []⟩] ↔
        (⟨"Ann", "Aggressive", "Right", []⟩ : Player) ∈
            [(⟨"Ann", "Aggressive", "Right", []⟩ : Player)]
          ∧ isSubstrCI "ann".data "Ann".data = true) :=
  ⟨⟨by decide, by decide⟩,
   name_filter_substring_amended "ann" (by decide) (by decide) _ _⟩

/-- C9: every user-driven lookup condition yields an ordinary view
model, not an exception — no selected player gives the please-select
placeholder, an unknown player name gives a not-found result carrying
the requested name, an unrecognized tab gives the generic invalid-tab
result, and a comparison with either slot unselected gives the
select-two-players placeholder. -/
theorem soft_failure_viewmodels (store : List Player) (tab n1 n2 : String)
    (p : Player) (b : Option String)
    (h1 : n1 ≠ "") (h2 : store.find? (fun q => decide (q.name = n1)) = none)
    (h3 : n2 ≠ "") (h4 : store.find? (fun q => decide (q.name = n2)) = some p)
    (h5 : tab ∉ (["overview", "rally", "volley", "serve", "special",
                  "physique", "talents", "compare"] : List String)) :
    render_tabs tab none store = ViewModel.selectPlayer
    ∧ render_tabs tab (some "") store = ViewModel.selectPlayer
    ∧ render_tabs tab (some n1) store = ViewModel.notFound n1
    ∧ render_tabs tab (some n2) store = ViewModel.invalidTab
    ∧ compare_players none b store = some CompareVM.selectTwo
    ∧ compare_players b none store = some CompareVM.selectTwo := by
  simp only [List.mem_cons, List.mem_singleton, not_or] at h5
  obtain ⟨t1, t2, t3, t4, t5, t6, t7, t8⟩ := h5
  refine ⟨rfl, by simp [render_tabs], ?_, ?_, ?_, ?_⟩
  · simp [render_tabs, h1, h2]
  · simp [render_tabs, h3, h4, t1, t2, t3, t4, t5, t6, t7, t8]
  · simp [compare_players, truthy]
  · simp [compare_players, truthy]

theorem soft_failure_viewmodels_witness :
    (("Zed" : String) ≠ ""
     ∧ [(⟨"Ann", "Aggressive", "Right", []⟩ : Player)].find?
          (fun q => decide (q.name = "Zed")) = none
     ∧ ("Ann" : String) ≠ ""
     ∧ [(⟨"Ann", "Aggressive", "Right", []⟩ : Player)].find?
          (fun q => decide (q.name = "Ann")) =
            some (⟨"Ann", "Aggressive", "Right", []⟩ : Player)
     ∧ ("bogus" : String) ∉ (["overview", "rally", "volley", "serve", "special",
          "physique", "talents", "compare"] : List String))
    ∧ (render_tabs "bogus" none [(⟨"Ann", "Aggressive", "Right", []⟩ : Player)]
        = ViewModel.selectPlayer
     ∧ render_tabs "bogus" (some "") [(⟨"Ann", "Aggressive", "Right", []⟩ : Player)]
        = ViewModel.selectPlayer
     ∧ render_tabs "bogus" (some "Zed") [(⟨"Ann", "Aggressive", "Right", []⟩ : Player)]
        = ViewModel.notFound "Zed"
     ∧ render_tabs "bogus" (some "Ann") [(⟨"Ann", "Aggressive", "Right", []⟩ : Player)]
        = ViewModel.invalidTab
     ∧ compare_players none none [(⟨"Ann", "Aggressive", "Right", []⟩ : Player)]
        = some CompareVM.selectTwo
     ∧ compare_players none none [(⟨"Ann", "Aggressive", "Right", []⟩ : Player)]
        = some CompareVM.selectTwo) :=
  ⟨⟨by decide, by decide, by decide, by decide, by decide⟩,
   soft_failure_viewmodels
     [(⟨"Ann", "Aggressive", "Right", []⟩ : Player)] "bogus" "Zed" "Ann"
     (⟨"Ann", "Aggressive", "Right", []⟩ : Player) none
     (by decide) (by decide) (by decide) (by decide) (by decide)⟩
